import Mathlib

set_option linter.unusedVariables false

/- Shallow embedding of the Lumora dashboard client (the React/TypeScript
   sources under src/).  JS numbers carrying confidences, thresholds and
   coordinates are modelled as rationals, millisecond timestamps as
   naturals, and each fallible asynchronous call as an Except value passed
   in as the outcome of the corresponding request.  Timer scheduling
   (setTimeout) is modelled by an explicit queue of pending fire times,
   fired in time order, with the idealisation that a timer fires exactly
   at its scheduled instant. -/

/-- Bounding box of a stored detection event (useDetectionContext). -/
structure BoundingBox where
  x : ℚ
  y : ℚ
  width : ℚ
  height : ℚ
deriving DecidableEq

/-- Detection event kept in the detection feed buffer (useDetectionContext
    in the hooks source file). -/
structure Detection where
  id : String
  camera_id : String
  confidence : ℚ
  bounding_box : BoundingBox
  frame_data : String
  created_at : String
  camera_name : String
deriving DecidableEq

/-- Active alert entry: camera id, confidence and creation instant
    (DetectionAlert in useDetectionContext). -/
structure DetectionAlert where
  camera_id : String
  confidence : ℚ
  timestamp : Nat
deriving DecidableEq

/-- State of the detection feed reducer: the bounded event buffer, the
    active alert list, and the fire times of the expiry sweeps that
    setTimeout has scheduled but not yet run. -/
structure FeedState where
  detections : List Detection
  activeAlerts : List DetectionAlert
  pendingSweeps : List Nat
deriving DecidableEq

/-- Both state arrays start empty (useState with empty array). -/
def initFeedState : FeedState := ⟨[], [], []⟩

/-- audio.play() followed by .catch with an empty handler: whatever the
    playback promise does, the caller sees a resolved promise. -/
def audioPlayCaught (playResult : Except String Unit) : Except String Unit :=
  match playResult with
  | Except.ok _ => Except.ok ()
  | Except.error _ => Except.ok ()

/-- Body of the scheduled expiry sweep: keep the alerts whose age at the
    sweep instant is under 5000 ms (prev.filter with Date.now()). -/
def sweepFilter (s : Nat) (alerts : List DetectionAlert) : List DetectionAlert :=
  alerts.filter (fun a => decide (s - a.timestamp < 5000))

/-- Insert a scheduled fire time into the sorted pending-timer queue. -/
def insertSweep (a : Nat) : List Nat → List Nat
  | [] => [a]
  | s :: rest => if a ≤ s then a :: s :: rest else s :: insertSweep a rest

/-- addDetection of useDetectionContext: prepend the event and truncate the
    buffer to 100; when the confidence meets the threshold, prepend an
    alert stamped with the call instant, play the notification sound with
    its failure swallowed, and schedule an expiry sweep 5000 ms ahead. -/
def addDetection (st : FeedState) (detection : Detection) (threshold : ℚ)
    (now : Nat) (audioPlayResult : Except String Unit) : FeedState :=
  let newDetections := (detection :: st.detections).take 100
  if detection.confidence ≥ threshold then
    let _audio := audioPlayCaught audioPlayResult
    { detections := newDetections
      activeAlerts := ⟨detection.camera_id, detection.confidence, now⟩ :: st.activeAlerts
      pendingSweeps := insertSweep (now + 5000) st.pendingSweeps }
  else
    { st with detections := newDetections }

/-- clearDetection: drop the buffer entry with the given id. -/
def clearDetection (st : FeedState) (detectionId : String) : FeedState :=
  { st with detections := st.detections.filter (fun d => decide (d.id ≠ detectionId)) }

/-- hasActiveAlert: the active alert list is non-empty. -/
def hasActiveAlert (st : FeedState) : Bool :=
  decide (0 < st.activeAlerts.length)

/-- highestConfidence: maximum confidence among active alerts, 0 if none. -/
def highestConfidence (st : FeedState) : ℚ :=
  match st.activeAlerts with
  | [] => 0
  | a :: rest => (rest.map (fun x => x.confidence)).foldl max a.confidence

/-- Run every pending sweep whose fire time has been reached, earliest
    first; each sweep filters the alert list at its own fire instant. -/
def fireDueAux (q : Nat) : List Nat → List DetectionAlert → List Nat × List DetectionAlert
  | [], alerts => ([], alerts)
  | s :: rest, alerts =>
    if s ≤ q then fireDueAux q rest (sweepFilter s alerts)
    else (s :: rest, alerts)

/-- Advance the timer queue of a feed state to instant q. -/
def fireDue (q : Nat) (st : FeedState) : FeedState :=
  { st with
    pendingSweeps := (fireDueAux q st.pendingSweeps st.activeAlerts).1
    activeAlerts := (fireDueAux q st.pendingSweeps st.activeAlerts).2 }

/-- One recorded call of addDetection: the event, the threshold it was
    compared against, the instant of the call, and the outcome of the
    audio playback attempted for it. -/
structure AddEvent where
  d : Detection
  threshold : ℚ
  time : Nat
  audio : Except String Unit

/-- Deliver one addDetection call at its own instant: timers due by then
    fire first, then the call runs. -/
def stepEvent (st : FeedState) (e : AddEvent) : FeedState :=
  addDetection (fireDue e.time st) e.d e.threshold e.time e.audio

/-- Feed state observed at instant q after a trace of addDetection calls:
    process the calls, then fire every sweep due by q. -/
def runTrace (events : List AddEvent) (q : Nat) : FeedState :=
  fireDue q (events.foldl stepEvent initFeedState)

/-- The alert record an above-threshold call inserts. -/
def mkAlert (e : AddEvent) : DetectionAlert :=
  ⟨e.d.camera_id, e.d.confidence, e.time⟩

/-- Theme hook state: the in-memory flag and the persisted key
    (useTheme reading and writing localStorage key lumoraTheme). -/
structure ThemeState where
  isDark : Bool
  stored : Option String
deriving DecidableEq

/-- Startup value of isDark: useState(true), then the mount effect applies
    saved === 'dark' only when the stored string is truthy. -/
def initTheme (saved : Option String) : Bool :=
  match saved with
  | none => true
  | some s => if s = "" then true else decide (s = "dark")

/-- toggleTheme: flip the flag and persist 'dark' or 'light'. -/
def toggleTheme (st : ThemeState) : ThemeState :=
  let next := !st.isDark
  { isDark := next, stored := some (if next then "dark" else "light") }

/-- Camera row (LumoraDashboard; stream_url optional as in CameraTile). -/
structure Camera where
  id : String
  name : String
  source_type : String
  is_active : Bool
  stream_url : Option String
  position : Int
deriving DecidableEq

/-- Overlay detection returned by the detector endpoint (class renamed to
    cls because class is a Lean keyword). -/
structure LocalDetection where
  cls : String
  confidence : ℚ
  bbox : List ℚ
deriving DecidableEq

/-- Parsed JSON body of a successful POST /detect response. -/
structure DetectResponse where
  detections : List LocalDetection
  image : Option String
deriving DecidableEq

/-- Outcome of one capture-loop fetch: 200 with a parsed body, a non-ok
    HTTP status, or a rejected promise (network error). -/
inductive FetchOutcome where
  | success (body : DetectResponse)
  | httpError (status : Nat)
  | networkError (message : String)
deriving DecidableEq

/-- Per-tile component state of CameraTileContent, plus the React fact of
    whether the component instance is still mounted. -/
structure TileState where
  mounted : Bool
  camera : Camera
  isStreaming : Bool
  localDetections : List LocalDetection
  error : Option String
deriving DecidableEq

/-- Application of one capture-loop response by its fetch callback: on
    response.ok the overlay list is replaced by data.detections; a non-ok
    status does nothing; a network error is only logged.  React discards a
    state update on an unmounted instance, hence the mounted guard; the
    source installs no further liveness check of its own. -/
def applyInferenceResponse (st : TileState) (outcome : FetchOutcome) : TileState :=
  if st.mounted then
    match outcome with
    | FetchOutcome.success body => { st with localDetections := body.detections }
    | FetchOutcome.httpError _ => st
    | FetchOutcome.networkError _ => st
  else st

/-- Unmounting the tile: the instance is gone; later state updates on it
    are dropped by React. -/
def unmountTile (st : TileState) : TileState :=
  { st with mounted := false }

/-- The camera row turning inactive while the tile stays mounted: the
    webcam effect re-runs (its cleanup stops the media tracks) and returns
    early, but nothing resets isStreaming or localDetections, and the
    inference interval (keyed on isStreaming alone) stays installed. -/
def deactivateCamera (st : TileState) : TileState :=
  { st with camera := { st.camera with is_active := false } }

/-- Dashboard-level state the claims need: the detection feed owned by
    LumoraDashboard and one camera tile. -/
structure DashboardState where
  feed : FeedState
  tile : TileState
deriving DecidableEq

/-- A tile's capture loop receives a successful inference response.  The
    fetch callback in CameraTileContent only calls setLocalDetections;
    CameraTile receives no detection callback prop and addDetection is not
    invoked anywhere in the sources, so the feed state is untouched. -/
def tileReceivesSuccess (sys : DashboardState) (body : DetectResponse) : DashboardState :=
  { sys with tile := applyInferenceResponse sys.tile (FetchOutcome.success body) }

/-- GunDetectionAlert returns null exactly when show is false. -/
def gunDetectionAlertRendered (shown : Bool) : Bool := shown

/-- The alert banner is visible when hasActiveAlert holds and the banner
    component, given show = hasActiveAlert, renders. -/
def alertBannerVisible (feed : FeedState) : Bool :=
  hasActiveAlert feed && gunDetectionAlertRendered (hasActiveAlert feed)

/-- DetectionLogPanel renders exactly the detections prop it is given. -/
def detectionLogEntries (feed : FeedState) : List Detection :=
  feed.detections

/-- splice(i, 0, x): insert x at index i, appending when i is past the
    end. -/
def insertAt {α : Type} : Nat → α → List α → List α
  | _, x, [] => [x]
  | 0, x, l => x :: l
  | Nat.succ n, x, y :: l => y :: insertAt n x l

/-- splice(i, 1): remove the element at index i when present. -/
def removeAt {α : Type} : Nat → List α → List α
  | _, [] => []
  | 0, _ :: l => l
  | Nat.succ n, y :: l => y :: removeAt n l

/-- dnd-kit arrayMove for in-range non-negative indices: take the element
    out at fromIndex and splice it back in at toIndex. -/
def arrayMove {α : Type} (l : List α) (fromIndex toIndex : Nat) : List α :=
  match l.get? fromIndex with
  | none => l
  | some x => insertAt toIndex x (removeAt fromIndex l)

/-- handleReorderCameras of LumoraDashboard: no-op on equal indices;
    otherwise the in-memory list is reordered first, then the bulk upsert
    of (id, position) pairs runs; its failure is only logged and the
    optimistic list is kept.  Returns the resulting local camera list and
    the logged persistence error, if any. -/
def handleReorderCameras (cameras : List Camera) (oldIndex newIndex : Nat)
    (persist : List (String × Nat) → Except String Unit) : List Camera × Option String :=
  if oldIndex = newIndex then (cameras, none)
  else
    let newCameras := arrayMove cameras oldIndex newIndex
    let updates := newCameras.enum.map (fun p => (p.2.id, p.1))
    match persist updates with
    | Except.ok _ => (newCameras, none)
    | Except.error e => (newCameras, some e)

/-- loadCameras of LumoraDashboard: the ordered select first; on its
    failure the unordered select; when both fail only a log happens and
    the previous camera list stays.  A successful select delivers
    data or an empty list when data is null. -/
def loadCameras (ordered : Except String (Option (List Camera)))
    (unordered : Except String (Option (List Camera)))
    (prev : List Camera) : List Camera :=
  match ordered with
  | Except.ok data => data.getD []
  | Except.error _ =>
    match unordered with
    | Except.ok data => data.getD []
    | Except.error _ => prev

/-- Singleton settings row of LumoraDashboard. -/
structure SystemSettings where
  id : String
  is_armed : Bool
  alert_threshold : ℚ
  dark_mode : Bool
deriving DecidableEq

/-- Row shape of an activity_log insert (ControlPanel). -/
structure ActivityLogInsert where
  event_type : String
  status_before : Option String
  status_after : String
  user_id : Option String
deriving DecidableEq

/-- Observable outcome of handleArmedChange / handleThresholdChange: the
    local settings state afterwards, the audit inserts attempted, the
    error surfaced to the UI, and the error written to the console. -/
structure ArmedChangeResult where
  settings : Option SystemSettings
  auditInsertsAttempted : List ActivityLogInsert
  surfacedError : Option String
  consoleError : Option String
deriving DecidableEq

/-- handleArmedChange of LumoraDashboard: a single blind update of the
    settings row (no preceding read, no audit insert); the local settings
    state changes only after the update succeeded; a failure is written to
    the console and nothing else happens. -/
def handleArmedChange (settings : Option SystemSettings) (armed : Bool)
    (updateResult : Except String Unit) : ArmedChangeResult :=
  match updateResult with
  | Except.ok _ => ⟨settings.map (fun s => { s with is_armed := armed }), [], none, none⟩
  | Except.error e => ⟨settings, [], none, some e⟩

/-- handleThresholdChange of LumoraDashboard, same shape as
    handleArmedChange but for alert_threshold. -/
def handleThresholdChange (settings : Option SystemSettings) (threshold : ℚ)
    (updateResult : Except String Unit) : ArmedChangeResult :=
  match updateResult with
  | Except.ok _ => ⟨settings.map (fun s => { s with alert_threshold := threshold }), [], none, none⟩
  | Except.error e => ⟨settings, [], none, some e⟩

/-- system_state row of the legacy dashboard (lib/supabase). -/
structure SystemState where
  id : String
  status : String
  last_updated : String
  updated_by : Option String
deriving DecidableEq

/-- Observable outcome of ControlPanel.updateSystemState: the audit row it
    attempted to insert (if it got that far), the error shown via
    setError, and whether onUpdate ran. -/
structure UpdateSystemStateResult where
  auditInsertAttempted : Option ActivityLogInsert
  errorShown : Option String
  onUpdateCalled : Bool
deriving DecidableEq

/-- updateSystemState of ControlPanel: read the singleton system_state
    row, update it, then insert the activity_log row recording the
    before/after status; the first failure aborts the rest and is surfaced
    through setError; onUpdate runs only when everything succeeded. -/
def updateSystemState (fetchResult : Except String (Option SystemState))
    (updateResult : Except String Unit) (logResult : Except String Unit)
    (newStatus eventType : String) (uid : Option String) : UpdateSystemStateResult :=
  match fetchResult with
  | Except.error e => ⟨none, some e, false⟩
  | Except.ok currentState =>
    match updateResult with
    | Except.error e => ⟨none, some e, false⟩
    | Except.ok _ =>
      let audit : ActivityLogInsert :=
        ⟨eventType, currentState.map (fun c => c.status), newStatus, uid⟩
      match logResult with
      | Except.error e => ⟨some audit, some e, false⟩
      | Except.ok _ => ⟨some audit, none, true⟩

/-- A concrete webcam camera row. -/
def cam0 : Camera := ⟨"cam-1", "Front Door", "webcam", true, none, 0⟩

/-- A concrete overlay detection returned by the detector. -/
def det0 : LocalDetection := ⟨"person", 1, [10, 20, 110, 220]⟩

/-- A concrete successful detector response body. -/
def body0 : DetectResponse := ⟨[det0], none⟩

/-- A mounted, streaming tile for cam0 with an empty overlay. -/
def tile0 : TileState := ⟨true, cam0, true, [], none⟩

/-- Dashboard with an empty feed and the tile above. -/
def sys0 : DashboardState := ⟨initFeedState, tile0⟩

/-- A concrete stored detection event with confidence 92. -/
def d0 : Detection :=
  ⟨"det-1", "cam-1", 92, ⟨12, 34, 56, 78⟩, "frame", "2026-01-01T00:00:00Z", "Front Door"⟩

/-- One addDetection call: d0 against threshold 70 at instant 1000. -/
def ev0 : AddEvent := ⟨d0, 70, 1000, Except.ok ()⟩

/-- A concrete settings row, disarmed with threshold 70. -/
def settings0 : SystemSettings := ⟨"settings-1", false, 70, true⟩

/-- Claim C10: the theme store defaults to dark when no preference has
    been persisted; after every toggle the persisted key holds "dark"
    exactly when the in-memory theme is dark; toggling twice returns the
    theme to its original value. -/
theorem theme_default_sync_involution (st : ThemeState) :
    initTheme none = true
    ∧ ((toggleTheme st).stored = some "dark" ↔ (toggleTheme st).isDark = true)
    ∧ (toggleTheme (toggleTheme st)).isDark = st.isDark := by
  refine ⟨rfl, ?_, ?_⟩ <;> cases h : st.isDark <;> simp [toggleTheme, h]

/-- Claim C8: when the ordered camera fetch fails, load falls back to the
    unordered fetch and returns the rows that fetch delivers for the user,
    not an empty list and not an error. -/
theorem loadCameras_fallback_returns_rows (e : String) (rows prev : List Camera) :
    loadCameras (Except.error e) (Except.ok (some rows)) prev = rows := rfl

/-- Claim C7: reorder(0,2) on cameras [A,B,C] yields the local in-memory
    order [B,C,A], and this result is independent of the outcome of the
    subsequent bulk-upsert persistence (no rollback on failure). -/
theorem reorder_immediate_no_rollback (A B C : Camera)
    (persist : List (String × Nat) → Except String Unit) :
    (handleReorderCameras [A, B, C] 0 2 persist).1 = [B, C, A] := by
  simp only [handleReorderCameras]
  rw [if_neg (by decide)]
  split <;> rfl

/-- Claim C6: recordDetection inserts exactly one active-alert entry,
    stamped with the call instant, when the event's confidence meets the
    threshold and none otherwise; the audio playback outcome is swallowed,
    never surfacing and never affecting the resulting state. -/
theorem recordDetection_alert_effect (st : FeedState) (d : Detection) (threshold : ℚ)
    (now : Nat) (audioPlayResult : Except String Unit) :
    ((addDetection st d threshold now audioPlayResult).activeAlerts =
      if d.confidence ≥ threshold then ⟨d.camera_id, d.confidence, now⟩ :: st.activeAlerts
      else st.activeAlerts)
    ∧ ((addDetection st d threshold now audioPlayResult).activeAlerts.length =
      if d.confidence ≥ threshold then st.activeAlerts.length + 1 else st.activeAlerts.length)
    ∧ audioPlayCaught audioPlayResult = Except.ok ()
    ∧ addDetection st d threshold now audioPlayResult = addDetection st d threshold now (Except.ok ()) := by
  refine ⟨?_, ?_, ?_, ?_⟩
  · by_cases h : d.confidence ≥ threshold <;> simp [addDetection, h]
  · by_cases h : d.confidence ≥ threshold <;> simp [addDetection, h]
  · cases audioPlayResult <;> rfl
  · by_cases h : d.confidence ≥ threshold <;> simp [addDetection, h]

/-- Claim C9: on a live tile a successful detector response replaces the
    overlay list wholesale with the new detections, while a failed request
    (non-ok status or network error) leaves the tile state unchanged. -/
theorem tick_response_overlay_effect (st : TileState) (body : DetectResponse)
    (status : Nat) (message : String) :
    ((applyInferenceResponse st (FetchOutcome.success body)).localDetections =
      if st.mounted then body.detections else st.localDetections)
    ∧ applyInferenceResponse st (FetchOutcome.httpError status) = st
    ∧ applyInferenceResponse st (FetchOutcome.networkError message) = st := by
  refine ⟨?_, ?_, ?_⟩ <;> cases h : st.mounted <;> simp [applyInferenceResponse, h]

/-- Claim C2 (amended): a response resolving after unmount changes nothing
    (React drops the update), but camera deactivation does not tear the
    tile down: it stays mounted and a late successful response still
    replaces its overlay list. -/
theorem teardown_response_semantics (st : TileState) (o : FetchOutcome) (body : DetectResponse) :
    applyInferenceResponse (unmountTile st) o = unmountTile st
    ∧ ((applyInferenceResponse (deactivateCamera st) (FetchOutcome.success body)).localDetections =
      if st.mounted then body.detections else st.localDetections)
    ∧ (deactivateCamera st).mounted = st.mounted := by
  refine ⟨?_, ?_, rfl⟩
  · simp [applyInferenceResponse, unmountTile]
  · cases h : st.mounted <;> simp [applyInferenceResponse, deactivateCamera, h]

/-- Claim C2 counterexample: a successful response applied after its
    camera was deactivated is not a no-op: it rewrites the retained
    overlay list of the still-mounted tile. -/
theorem late_response_after_deactivation_mutates :
    (applyInferenceResponse (deactivateCamera tile0) (FetchOutcome.success body0)).localDetections
      ≠ (deactivateCamera tile0).localDetections := by decide

/-- Claim C1 (amended): a successful capture-loop response never reaches
    the detection feed reducer (addDetection has no call site); it only
    touches the tile overlay, while the reducer's own output is what
    drives the alert banner and the detection log panel. -/
theorem capture_results_stay_local (sys : DashboardState) (body : DetectResponse)
    (feed : FeedState) :
    (tileReceivesSuccess sys body).feed = sys.feed
    ∧ (tileReceivesSuccess sys body).tile = applyInferenceResponse sys.tile (FetchOutcome.success body)
    ∧ alertBannerVisible feed = hasActiveAlert feed
    ∧ detectionLogEntries feed = feed.detections := by
  refine ⟨rfl, rfl, ?_, rfl⟩
  cases h : hasActiveAlert feed <;> simp [alertBannerVisible, gunDetectionAlertRendered, h]

/-- Claim C1 counterexample: at a dashboard with an empty feed, a
    successful response carrying a detection updates the tile overlay but
    the reducer state stays empty: recordDetection was not invoked, the
    buffer gains nothing and the alert banner stays hidden. -/
theorem capture_response_not_recorded :
    (tileReceivesSuccess sys0 body0).tile.localDetections = body0.detections
    ∧ body0.detections ≠ []
    ∧ (tileReceivesSuccess sys0 body0).feed.detections = []
    ∧ (tileReceivesSuccess sys0 body0).feed.activeAlerts = []
    ∧ alertBannerVisible (tileReceivesSuccess sys0 body0).feed = false := by decide

/-- Claim C4 (amended): setArmed / setThreshold in the dashboard issue a
    blind update with no audit insert, change the local settings only on
    success and on failure only log to the console; the read-then-update
    plus audit-append behaviour lives in ControlPanel.updateSystemState,
    which attempts the audit only after a successful update, records the
    before/after status, surfaces the first failure, and refreshes only on
    full success. -/
theorem arm_controller_behavior (s : Option SystemSettings) (armed : Bool) (t : ℚ)
    (e : String) (cur : Option SystemState) (ns et : String) (uid : Option String)
    (ur lr : Except String Unit) :
    handleArmedChange s armed (Except.ok ()) =
      ⟨s.map (fun x => { x with is_armed := armed }), [], none, none⟩
    ∧ handleArmedChange s armed (Except.error e) = ⟨s, [], none, some e⟩
    ∧ handleThresholdChange s t (Except.ok ()) =
      ⟨s.map (fun x => { x with alert_threshold := t }), [], none, none⟩
    ∧ handleThresholdChange s t (Except.error e) = ⟨s, [], none, some e⟩
    ∧ updateSystemState (Except.error e) ur lr ns et uid = ⟨none, some e, false⟩
    ∧ updateSystemState (Except.ok cur) (Except.error e) lr ns et uid = ⟨none, some e, false⟩
    ∧ updateSystemState (Except.ok cur) (Except.ok ()) (Except.error e) ns et uid =
      ⟨some ⟨et, cur.map (fun c => c.status), ns, uid⟩, some e, false⟩
    ∧ updateSystemState (Except.ok cur) (Except.ok ()) (Except.ok ()) ns et uid =
      ⟨some ⟨et, cur.map (fun c => c.status), ns, uid⟩, none, true⟩ :=
  ⟨rfl, rfl, rfl, rfl, rfl, rfl, rfl, rfl⟩

/-- Claim C4 counterexample: setArmed(true) with the row update failing
    appends no audit record, surfaces no error to the caller (console log
    only), and leaves the local settings at the old value instead of the
    attempted one. -/
theorem armed_change_claim_fails :
    ¬ ((handleArmedChange (some settings0) true (Except.error "update failed")).auditInsertsAttempted ≠ []
       ∧ (handleArmedChange (some settings0) true (Except.error "update failed")).surfacedError ≠ none
       ∧ (handleArmedChange (some settings0) true (Except.error "update failed")).settings =
         some { settings0 with is_armed := true }) := by decide

theorem fireDue_detections (q : Nat) (st : FeedState) :
    (fireDue q st).detections = st.detections := rfl

theorem stepEvent_detections (st : FeedState) (e : AddEvent) :
    (stepEvent st e).detections = (e.d :: st.detections).take 100 := by
  by_cases h : e.d.confidence ≥ e.threshold <;>
    simp [stepEvent, addDetection, fireDue, h]

theorem take_append_take {α : Type} (l m : List α) (n : Nat) :
    (l ++ m.take n).take n = (l ++ m).take n := by
  rw [List.take_append_eq_append_take, List.take_append_eq_append_take,
    List.take_take, Nat.min_eq_left (Nat.sub_le n l.length)]

theorem foldl_stepEvent_detections : ∀ (events : List AddEvent) (st : FeedState),
    st.detections.length ≤ 100 →
    (events.foldl stepEvent st).detections =
      ((events.map (fun e => e.d)).reverse ++ st.detections).take 100 := by
  intro events
  induction events with
  | nil =>
    intro st h
    simp [List.take_of_length_le h]
  | cons e es ih =>
    intro st h
    rw [List.foldl_cons, ih (stepEvent st e) (by simp [stepEvent_detections]),
      stepEvent_detections, take_append_take]
    simp [List.append_assoc]

/-- Claim C5: over any sequence of recordDetection calls the buffer equals
    the recorded events newest-first truncated to 100 — so its length
    never exceeds 100, it is ordered most-recent-first, and when the cap
    is reached the oldest entry is the one dropped. -/
theorem detection_buffer_bound (events : List AddEvent) (q : Nat) :
    (runTrace events q).detections = ((events.map (fun e => e.d)).reverse).take 100
    ∧ (runTrace events q).detections.length ≤ 100 := by
  have h : (runTrace events q).detections = ((events.map (fun e => e.d)).reverse).take 100 := by
    rw [runTrace, fireDue_detections,
      foldl_stepEvent_detections events initFeedState (by simp [initFeedState])]
    simp [initFeedState]
  refine ⟨h, ?_⟩
  rw [h]
  simp [List.length_take]

theorem mem_sweepFilter {s : Nat} {a : DetectionAlert} {alerts : List DetectionAlert} :
    a ∈ sweepFilter s alerts ↔ a ∈ alerts ∧ s - a.timestamp < 5000 := by
  simp [sweepFilter]

theorem mem_insertSweep {x a : Nat} : ∀ {l : List Nat},
    x ∈ insertSweep a l ↔ x = a ∨ x ∈ l := by
  intro l
  induction l with
  | nil => simp [insertSweep]
  | cons s rest ih =>
    by_cases h : a ≤ s
    · simp [insertSweep, h]
    · simp [insertSweep, h, ih]
      tauto

theorem pairwise_insertSweep {a : Nat} : ∀ {l : List Nat}, l.Pairwise (· ≤ ·) →
    (insertSweep a l).Pairwise (· ≤ ·) := by
  intro l
  induction l with
  | nil => intro _; simp [insertSweep]
  | cons s rest ih =>
    intro h
    rw [List.pairwise_cons] at h
    by_cases hle : a ≤ s
    · simp only [insertSweep, if_pos hle, List.pairwise_cons]
      refine ⟨fun b hb => ?_, h.1, h.2⟩
      rcases List.mem_cons.mp hb with rfl | hb
      · exact hle
      · exact Nat.le_trans hle (h.1 b hb)
    · simp only [insertSweep, if_neg hle, List.pairwise_cons]
      refine ⟨fun b hb => ?_, ih h.2⟩
      rcases mem_insertSweep.mp hb with rfl | hb
      · omega
      · exact h.1 b hb

theorem fireDueAux_fst_sorted (q : Nat) : ∀ (sweeps : List Nat) (alerts : List DetectionAlert),
    sweeps.Pairwise (· ≤ ·) → ((fireDueAux q sweeps alerts).1).Pairwise (· ≤ ·) := by
  intro sweeps
  induction sweeps with
  | nil => intro alerts _; simp [fireDueAux]
  | cons s rest ih =>
    intro alerts h
    rw [List.pairwise_cons] at h
    by_cases hs : s ≤ q
    · simp only [fireDueAux, if_pos hs]
      exact ih _ h.2
    · simp only [fireDueAux, if_neg hs]
      exact List.pairwise_cons.mpr h

theorem fireDueAux_fst_gt (q : Nat) : ∀ (sweeps : List Nat) (alerts : List DetectionAlert),
    sweeps.Pairwise (· ≤ ·) → ∀ s ∈ (fireDueAux q sweeps alerts).1, q < s := by
  intro sweeps
  induction sweeps with
  | nil => intro alerts _ s hs; simp [fireDueAux] at hs
  | cons s rest ih =>
    intro alerts h
    rw [List.pairwise_cons] at h
    by_cases hs : s ≤ q
    · simp only [fireDueAux, if_pos hs]
      exact ih _ h.2
    · simp only [fireDueAux, if_neg hs]
      intro x hx
      rcases List.mem_cons.mp hx with rfl | hx
      · omega
      · have := h.1 x hx
        omega

theorem fireDueAux_pairing (q : Nat) : ∀ (sweeps : List Nat) (alerts : List DetectionAlert),
    (∀ a ∈ alerts, a.timestamp + 5000 ∈ sweeps) →
    ∀ a ∈ (fireDueAux q sweeps alerts).2, a.timestamp + 5000 ∈ (fireDueAux q sweeps alerts).1 := by
  intro sweeps
  induction sweeps with
  | nil => intro alerts h a ha; exact h a ha
  | cons s rest ih =>
    intro alerts h
    by_cases hs : s ≤ q
    · simp only [fireDueAux, if_pos hs]
      apply ih
      intro a ha
      rcases mem_sweepFilter.mp ha with ⟨hmem, hage⟩
      rcases List.mem_cons.mp (h a hmem) with heq | hrest
      · exfalso
        omega
      · exact hrest
    · simp only [fireDueAux, if_neg hs]
      exact h

theorem fireDueAux_mem_snd (q q' : Nat) (hq : q' ≤ q) (a : DetectionAlert)
    (hfresh : q < a.timestamp + 5000) : ∀ (sweeps : List Nat) (alerts : List DetectionAlert),
    a ∈ alerts → a ∈ (fireDueAux q' sweeps alerts).2 := by
  intro sweeps
  induction sweeps with
  | nil => intro alerts ha; exact ha
  | cons s rest ih =>
    intro alerts ha
    by_cases hs : s ≤ q'
    · simp only [fireDueAux, if_pos hs]
      exact ih _ (mem_sweepFilter.mpr ⟨ha, by omega⟩)
    · simp only [fireDueAux, if_neg hs]
      exact ha

theorem wf_addDetection (st : FeedState) (d : Detection) (th : ℚ) (now : Nat)
    (r : Except String Unit)
    (h1 : st.pendingSweeps.Pairwise (· ≤ ·))
    (h2 : ∀ a ∈ st.activeAlerts, a.timestamp + 5000 ∈ st.pendingSweeps) :
    (addDetection st d th now r).pendingSweeps.Pairwise (· ≤ ·)
    ∧ ∀ a ∈ (addDetection st d th now r).activeAlerts,
        a.timestamp + 5000 ∈ (addDetection st d th now r).pendingSweeps := by
  by_cases h : d.confidence ≥ th
  · simp only [addDetection, if_pos h]
    refine ⟨pairwise_insertSweep h1, ?_⟩
    intro a ha
    rcases List.mem_cons.mp ha with rfl | ha
    · exact mem_insertSweep.mpr (Or.inl rfl)
    · exact mem_insertSweep.mpr (Or.inr (h2 a ha))
  · simp only [addDetection, if_neg h]
    exact ⟨h1, h2⟩

theorem wf_runTrace_alerts (events : List AddEvent) (q : Nat) :
    ∀ a ∈ (runTrace events q).activeAlerts, q < a.timestamp + 5000 := by
  suffices hwf : ∀ (es : List AddEvent) (st : FeedState),
      st.pendingSweeps.Pairwise (· ≤ ·) →
      (∀ a ∈ st.activeAlerts, a.timestamp + 5000 ∈ st.pendingSweeps) →
      ((es.foldl stepEvent st).pendingSweeps.Pairwise (· ≤ ·)
        ∧ ∀ a ∈ (es.foldl stepEvent st).activeAlerts,
            a.timestamp + 5000 ∈ (es.foldl stepEvent st).pendingSweeps) by
    have hW := hwf events initFeedState (by simp [initFeedState]) (by simp [initFeedState])
    intro a ha
    have hpair := fireDueAux_pairing q _ _ hW.2 a ha
    have hgt := fireDueAux_fst_gt q _ _ hW.1 _ hpair
    omega
  intro es
  induction es with
  | nil => intro st h1 h2; exact ⟨h1, h2⟩
  | cons e es ih =>
    intro st h1 h2
    rw [List.foldl_cons]
    have hf1 : (fireDue e.time st).pendingSweeps.Pairwise (· ≤ ·) :=
      fireDueAux_fst_sorted e.time _ _ h1
    have hf2 : ∀ a ∈ (fireDue e.time st).activeAlerts,
        a.timestamp + 5000 ∈ (fireDue e.time st).pendingSweeps :=
      fireDueAux_pairing e.time _ _ h2
    exact ih _ (wf_addDetection _ _ _ _ _ hf1 hf2).1 (wf_addDetection _ _ _ _ _ hf1 hf2).2

theorem mem_alerts_foldl (q : Nat) (a : DetectionAlert) (hfresh : q < a.timestamp + 5000) :
    ∀ (events : List AddEvent) (st : FeedState),
    (∀ e ∈ events, e.time ≤ q) → a ∈ st.activeAlerts →
    a ∈ (events.foldl stepEvent st).activeAlerts := by
  intro events
  induction events with
  | nil => intro st _ ha; exact ha
  | cons e es ih =>
    intro st hts ha
    rw [List.foldl_cons]
    have h1 : a ∈ (fireDue e.time st).activeAlerts :=
      fireDueAux_mem_snd q e.time (hts e (List.mem_cons_self _ _)) a hfresh _ _ ha
    have h2 : a ∈ (stepEvent st e).activeAlerts := by
      by_cases h : e.d.confidence ≥ e.threshold
      · simp only [stepEvent, addDetection, if_pos h]
        exact List.mem_cons_of_mem _ h1
      · simp only [stepEvent, addDetection, if_neg h]
        exact h1
    exact ih _ (fun x hx => hts x (List.mem_cons_of_mem _ hx)) h2

theorem inserted_alert_mem (st : FeedState) (e : AddEvent)
    (h : e.d.confidence ≥ e.threshold) :
    mkAlert e ∈ (stepEvent st e).activeAlerts := by
  simp only [stepEvent, addDetection, if_pos h, mkAlert]
  exact List.mem_cons_self _ _

theorem alert_presence (events : List AddEvent) (q : Nat)
    (h : ∀ e ∈ events, e.time ≤ q) (e : AddEvent) (he : e ∈ events)
    (hconf : e.d.confidence ≥ e.threshold) (hq : q < e.time + 5000) :
    mkAlert e ∈ (runTrace events q).activeAlerts := by
  rcases List.append_of_mem he with ⟨pre, post, rfl⟩
  rw [runTrace, List.foldl_append, List.foldl_cons]
  have hfresh : q < (mkAlert e).timestamp + 5000 := hq
  have h1 : mkAlert e ∈ (stepEvent (pre.foldl stepEvent initFeedState) e).activeAlerts :=
    inserted_alert_mem _ e hconf
  have h2 : mkAlert e ∈ (post.foldl stepEvent
      (stepEvent (pre.foldl stepEvent initFeedState) e)).activeAlerts :=
    mem_alerts_foldl q (mkAlert e) hfresh post _
      (fun x hx => h x (List.mem_append_right _ (List.mem_cons_of_mem _ hx))) h1
  exact fireDueAux_mem_snd q q (Nat.le_refl q) (mkAlert e) hfresh _ _ h2

theorem alert_absence (events : List AddEvent) (q : Nat) (e : AddEvent)
    (hq : e.time + 5000 ≤ q) : mkAlert e ∉ (runTrace events q).activeAlerts := by
  intro hmem
  have hlt := wf_runTrace_alerts events q (mkAlert e) hmem
  simp only [mkAlert] at hlt
  omega

/-- Claim C3: an active alert created at instant T is in the active set at
    any query instant in [T, T+5000) and out of it at any query instant
    at or past T+5000 (under the idealisation that a scheduled sweep fires
    exactly on time); moreover every alert in the queried set is younger
    than 5000 ms, and two alerts created 3000 ms apart expire 5000 ms
    after their own creation instants, independently of each other. -/
theorem alert_window_expiry (events : List AddEvent) (q : Nat)
    (h : ∀ e ∈ events, e.time ≤ q) :
    (∀ e ∈ events, e.d.confidence ≥ e.threshold → q < e.time + 5000 →
        mkAlert e ∈ (runTrace events q).activeAlerts)
    ∧ (∀ e : AddEvent, e.time + 5000 ≤ q → mkAlert e ∉ (runTrace events q).activeAlerts)
    ∧ (∀ a ∈ (runTrace events q).activeAlerts, q < a.timestamp + 5000)
    ∧ (∀ e1 e2 : AddEvent, e2.time = e1.time + 3000 →
        e1.d.confidence ≥ e1.threshold → e2.d.confidence ≥ e2.threshold →
        mkAlert e1 ∉ (runTrace [e1, e2] (e1.time + 6000)).activeAlerts
        ∧ mkAlert e2 ∈ (runTrace [e1, e2] (e1.time + 6000)).activeAlerts
        ∧ mkAlert e2 ∉ (runTrace [e1, e2] (e1.time + 8000)).activeAlerts) := by
  refine ⟨?_, ?_, wf_runTrace_alerts events q, ?_⟩
  · intro e he hconf hq
    exact alert_presence events q h e he hconf hq
  · intro e hq
    exact alert_absence events q e hq
  · intro e1 e2 ht hc1 hc2
    refine ⟨alert_absence _ _ _ (by omega), ?_, alert_absence _ _ _ (by omega)⟩
    apply alert_presence _ _ ?_ e2 ?_ hc2 (by omega)
    · intro x hx
      rcases List.mem_cons.mp hx with rfl | hx
      · omega
      · rcases List.mem_cons.mp hx with rfl | hx
        · omega
        · cases hx
    · exact List.mem_cons_of_mem _ (List.mem_cons_self _ _)

/-- Witness for the claim C3 theorem: one concrete call at instant 1000
    with confidence 92 against threshold 70, queried at instant 1200,
    leaves the alert present in the active set. -/
theorem alert_window_expiry_witness :
    mkAlert ev0 ∈ (runTrace [ev0] 1200).activeAlerts :=
  (alert_window_expiry [ev0] 1200 (by
      intro e he
      rw [List.mem_singleton] at he
      subst he
      decide)).1 ev0 (List.mem_singleton.mpr rfl) (by decide) (by decide)
